import Mathlib

/-!
Verification of the simple-notes-app backend.

Shallow embedding of `src/notes_backend/src/api/notes.py`: a CRUD HTTP API
over a single SQLite table
`notes(id INTEGER PRIMARY KEY, title TEXT, content TEXT, created_at TEXT, updated_at TEXT)`.

Modelling choices, faithful to the source:
* The table is a `List Note` (rows in insertion order); `SELECT ... WHERE id = ?`
  followed by `.fetchone()` is `List.find?` on the id.
* Timestamps are `datetime.utcnow().isoformat()` strings with microsecond
  resolution; they are modelled as natural numbers counting microseconds, and
  each handler receives the current clock value `now` as an explicit argument.
  The list query sorts by `datetime(updated_at)`, and SQLite's `datetime()`
  normalizes to `YYYY-MM-DD HH:MM:SS`, discarding the fractional seconds: the
  sort key is the timestamp truncated to whole seconds (`datetimeTrunc`), not
  the stored microsecond value.
* Pydantic validation (`Field(min_length, max_length)`) runs before the handler
  body and rejects with HTTP 422; it is modelled as an explicit boolean check at
  the head of each operation. Lengths are character counts, as in Python `len`.
* `cur.lastrowid` for an `INTEGER PRIMARY KEY` column without `AUTOINCREMENT`
  follows SQLite's documented rowid assignment: one more than the largest rowid
  currently in the table, and 1 for an empty table.
* `sqlite3.Error` (HTTP 500) paths are not reachable in the embedding, which
  models storage itself; the unreachable `_row_to_note(None)` crash after an
  insert or update is modelled by `ApiError.internal`.
-/

/-- A row of the `notes` table / the `NoteOut` wire shape. -/
structure Note where
  id : Nat
  title : String
  content : String
  created_at : Nat
  updated_at : Nat
deriving Repr, DecidableEq

/-- The `notes` table: rows in rowid insertion order. -/
abbrev DB := List Note

/-- `NoteCreate` payload: `title` and `content`, both required. -/
structure NoteCreate where
  title : String
  content : String
deriving Repr, DecidableEq

/-- `NoteUpdate` payload: optional `title` and `content` (partial update). -/
structure NoteUpdate where
  title : Option String
  content : Option String
deriving Repr, DecidableEq

/-- Error outcomes a handler can raise (`HTTPException` status classes). -/
inductive ApiError where
  /-- HTTP 404 `Note not found`. -/
  | notFound
  /-- HTTP 422 validation failure (pydantic or the handler's own check). -/
  | validation
  /-- HTTP 500: a path the source reaches only through a crash/DB error. -/
  | internal
deriving Repr, DecidableEq

/-- HTTP status code of an error outcome. -/
def ApiError.status : ApiError → Nat
  | .notFound => 404
  | .validation => 422
  | .internal => 500

/-- `Field(..., min_length=1, max_length=200)` on `title`. -/
def validTitle (t : String) : Bool :=
  1 ≤ t.length && t.length ≤ 200

/-- `Field(..., min_length=1, max_length=20000)` on `content`. -/
def validContent (c : String) : Bool :=
  1 ≤ c.length && c.length ≤ 20000

/-- Pydantic validation of a `NoteCreate` body (both fields required). -/
def NoteCreate.valid (p : NoteCreate) : Bool :=
  validTitle p.title && validContent p.content

/-- Pydantic validation of a `NoteUpdate` body: each constraint applies only
to a field that is present. -/
def NoteUpdate.valid (p : NoteUpdate) : Bool :=
  (match p.title with | none => true | some t => validTitle t) &&
  (match p.content with | none => true | some c => validContent c)

/-- `SELECT ... FROM notes WHERE id = ?` followed by `.fetchone()`. -/
def selectNote (db : DB) (i : Nat) : Option Note :=
  db.find? (fun n => n.id == i)

/-- Largest id currently in the table (0 when empty). -/
def maxId (db : DB) : Nat :=
  db.foldr (fun n acc => max n.id acc) 0

/-- SQLite rowid assignment for `INTEGER PRIMARY KEY` without `AUTOINCREMENT`:
the new rowid is one more than the largest rowid in use (1 on an empty table). -/
def nextRowId (db : DB) : Nat :=
  maxId db + 1

/-- Microseconds per second: model timestamps count microseconds, matching the
microsecond resolution of `datetime.utcnow().isoformat()`. -/
def usecPerSec : Nat := 1000000

/-- SQLite `datetime()` applied to a stored isoformat timestamp: the value is
normalized to `YYYY-MM-DD HH:MM:SS`, discarding fractional seconds — on a
microsecond-count timestamp, truncation to whole seconds. -/
def datetimeTrunc (t : Nat) : Nat :=
  t / usecPerSec

/-- `GET /notes` (`list_notes`): all rows,
`ORDER BY datetime(updated_at) DESC, id DESC`. The sort key is
`datetime(updated_at)`, i.e. the second-truncated timestamp. `noteLE a b`
holds when row `a` may appear at or before row `b` in that order. -/
def noteLE (a b : Note) : Bool :=
  (datetimeTrunc b.updated_at < datetimeTrunc a.updated_at) ||
  (datetimeTrunc b.updated_at == datetimeTrunc a.updated_at && b.id ≤ a.id)

/-- `GET /notes` handler body. -/
def list_notes (db : DB) : List Note :=
  db.mergeSort noteLE

/-- `POST /notes` (`create_note`): validate the payload, insert a row with
`created_at = updated_at = now`, then select the row back by `lastrowid`. -/
def create_note (db : DB) (p : NoteCreate) (now : Nat) : Except ApiError (DB × Note) :=
  if !p.valid then
    .error .validation
  else
    let note_id := nextRowId db
    let db' := db ++ [⟨note_id, p.title, p.content, now, now⟩]
    match selectNote db' note_id with
    | some n => .ok (db', n)
    | none => .error .internal

/-- `GET /notes/{id}` (`get_note`). -/
def get_note (db : DB) (i : Nat) : Except ApiError Note :=
  match selectNote db i with
  | none => .error .notFound
  | some n => .ok n

/-- `PUT /notes/{id}` (`update_note`): pydantic validation, then the handler's
empty-payload check, then load the existing row, substitute the existing value
for each omitted field, write `title`/`content`/`updated_at`, select back. -/
def update_note (db : DB) (i : Nat) (p : NoteUpdate) (now : Nat) :
    Except ApiError (DB × Note) :=
  if !p.valid then
    .error .validation
  else if p.title = none ∧ p.content = none then
    .error .validation
  else
    match selectNote db i with
    | none => .error .notFound
    | some existing =>
      let new_title := p.title.getD existing.title
      let new_content := p.content.getD existing.content
      let db' := db.map (fun n =>
        if n.id == i then
          { n with title := new_title, content := new_content, updated_at := now }
        else n)
      match selectNote db' i with
      | some n => .ok (db', n)
      | none => .error .internal

/-- `DELETE /notes/{id}` (`delete_note`): `DELETE FROM notes WHERE id = ?`;
404 when `cur.rowcount == 0`. On success the handler returns
`Response(status_code=204)` with an empty body, carried here as the new table. -/
def delete_note (db : DB) (i : Nat) : Except ApiError DB :=
  let db' := db.filter (fun n => n.id != i)
  if db'.length == db.length then .error .notFound else .ok db'

/-- HTTP status code produced by the delete endpoint (204 carries no body). -/
def deleteStatus (db : DB) (i : Nat) : Nat :=
  match delete_note db i with
  | .ok _ => 204
  | .error e => e.status

/-- HTTP status code produced by the update endpoint. -/
def updateStatus (db : DB) (i : Nat) (p : NoteUpdate) (now : Nat) : Nat :=
  match update_note db i p now with
  | .ok _ => 200
  | .error e => e.status

/-- HTTP status code produced by the get endpoint. -/
def getStatus (db : DB) (i : Nat) : Nat :=
  match get_note db i with
  | .ok _ => 200
  | .error e => e.status

/-- One API call in a trace, with the clock value at which it runs. -/
inductive Op where
  | create (p : NoteCreate)
  | update (i : Nat) (p : NoteUpdate)
  | delete (i : Nat)
deriving Repr

/-- State after one operation: a failed call leaves the table unchanged. -/
def applyOp (db : DB) (op : Op) (now : Nat) : DB :=
  match op with
  | .create p =>
    match create_note db p now with
    | .ok (db', _) => db'
    | .error _ => db
  | .update i p =>
    match update_note db i p now with
    | .ok (db', _) => db'
    | .error _ => db
  | .delete i =>
    match delete_note db i with
    | .ok db' => db'
    | .error _ => db

/-- Run a timestamped trace of operations from an initial table. -/
def runOps (db : DB) (ops : List (Op × Nat)) : DB :=
  ops.foldl (fun d p => applyOp d p.1 p.2) db

/-- Whether a trace step is a create call. -/
def Op.isCreate : Op → Bool
  | .create _ => true
  | _ => false

/-- Clock-consistency of a table at clock value `t`: every row satisfies
`created_at ≤ updated_at` and carries no timestamp from the future. -/
def TimeWF (t : Nat) (db : DB) : Prop :=
  ∀ n ∈ db, n.created_at ≤ n.updated_at ∧ n.updated_at ≤ t

/-! ### Helper lemmas about the storage primitives -/

theorem selectNote_eq_none_iff {db : DB} {i : Nat} :
    selectNote db i = none ↔ ∀ n ∈ db, n.id ≠ i := by
  simp [selectNote, List.find?_eq_none]

theorem mem_id_le_maxId {db : DB} {n : Note} (h : n ∈ db) : n.id ≤ maxId db := by
  induction db with
  | nil => cases h
  | cons m tl ih =>
    rcases List.mem_cons.mp h with h | h
    · subst h; simp [maxId]
    · have := ih h
      simp only [maxId, List.foldr_cons] at *
      omega

theorem selectNote_append_last {db : DB} {m : Note}
    (h : ∀ n ∈ db, n.id ≠ m.id) : selectNote (db ++ [m]) m.id = some m := by
  have h1 : List.find? (fun n => n.id == m.id) db = none := by
    simp only [List.find?_eq_none, beq_iff_eq]
    exact h
  simp [selectNote, List.find?_append, h1, List.find?]

theorem create_note_ok {db : DB} {p : NoteCreate} {now : Nat} (hv : p.valid = true) :
    create_note db p now =
      .ok (db ++ [⟨nextRowId db, p.title, p.content, now, now⟩],
           ⟨nextRowId db, p.title, p.content, now, now⟩) := by
  have hfresh : ∀ n ∈ db, n.id ≠ (⟨nextRowId db, p.title, p.content, now, now⟩ : Note).id := by
    intro n hn
    have := mem_id_le_maxId hn
    simp only [nextRowId]
    omega
  unfold create_note
  rw [hv]
  simp only [Bool.not_true, Bool.false_eq_true, if_false, selectNote_append_last hfresh]

theorem selectNote_map_of_id_preserving {db : DB} {i : Nat} {f : Note → Note}
    (hpres : ∀ n, (f n).id = n.id) :
    selectNote (db.map f) i = Option.map f (selectNote db i) := by
  have hfun : ((fun n : Note => n.id == i) ∘ f) = fun n : Note => n.id == i := by
    funext n
    simp [Function.comp, hpres]
  simp only [selectNote]
  rw [List.find?_map, hfun]

theorem update_note_ok {db : DB} {i now : Nat} {p : NoteUpdate} {existing : Note}
    (hv : p.valid = true) (hne : ¬(p.title = none ∧ p.content = none))
    (hfound : selectNote db i = some existing) :
    update_note db i p now =
      .ok (db.map (fun n => if n.id == i then
             { n with title := p.title.getD existing.title,
                      content := p.content.getD existing.content,
                      updated_at := now } else n),
           { existing with title := p.title.getD existing.title,
                           content := p.content.getD existing.content,
                           updated_at := now }) := by
  have hid : (existing.id == i) = true := by
    have := List.find?_some (p := fun n : Note => n.id == i) hfound
    exact this
  have hid2 : existing.id = i := by simpa using hid
  unfold update_note
  rw [hv, if_neg hne, hfound]
  simp only [Bool.not_true, Bool.false_eq_true, if_false]
  set f : Note → Note := fun n => if n.id == i then
      { n with title := p.title.getD existing.title,
               content := p.content.getD existing.content,
               updated_at := now } else n with hf
  have hpres : ∀ n, (f n).id = n.id := by
    intro n
    simp only [hf]
    by_cases h : (n.id == i) = true
    · simp [h]
    · simp [h]
  have hsel : selectNote (db.map f) i = some (f existing) := by
    rw [selectNote_map_of_id_preserving hpres, hfound]
    rfl
  rw [hsel]
  simp [hf, hid2]

theorem delete_note_of_none {db : DB} {i : Nat} (h : selectNote db i = none) :
    delete_note db i = .error .notFound := by
  have hall : ∀ n ∈ db, n.id ≠ i := selectNote_eq_none_iff.mp h
  have hfil : db.filter (fun n => n.id != i) = db := by
    rw [List.filter_eq_self]
    intro a ha
    simpa using hall a ha
  simp [delete_note, hfil]

theorem delete_note_of_some {db : DB} {i : Nat} {m : Note}
    (h : selectNote db i = some m) :
    delete_note db i = .ok (db.filter (fun n => n.id != i)) := by
  have hmem : m ∈ db := List.mem_of_find?_eq_some h
  have hmid : m.id = i := by
    simpa using (List.find?_some (p := fun n : Note => n.id == i) h)
  have hne : ¬ ((db.filter (fun n => n.id != i)).length == db.length) = true := by
    simp only [beq_iff_eq, List.filter_length_eq_length]
    intro hall
    have := hall m hmem
    simp [hmid] at this
  simp only [delete_note]
  rw [if_neg hne]

/-! ### Claim theorems -/

/-- C1: For every existing note id and every update payload that supplies at
least one of title/content (and passes payload validation), the update succeeds;
the stored and returned note keeps its id and `created_at`, takes each supplied
field from the payload, keeps the stored value of each omitted field, and gets
`updated_at` set to the current clock; every row with a different id is kept.
In particular updating only `title` leaves `content` unchanged and vice versa. -/
theorem update_replaces_exactly_supplied_fields
    (db : DB) (i now : Nat) (p : NoteUpdate) (existing : Note)
    (hfound : selectNote db i = some existing)
    (hv : p.valid = true)
    (hne : ¬(p.title = none ∧ p.content = none)) :
    ∃ db' n', update_note db i p now = Except.ok (db', n') ∧
      n'.id = existing.id ∧
      n'.title = p.title.getD existing.title ∧
      n'.content = p.content.getD existing.content ∧
      n'.created_at = existing.created_at ∧
      n'.updated_at = now ∧
      selectNote db' i = some n' ∧
      (∀ m ∈ db, m.id ≠ i → m ∈ db') := by
  have hid2 : existing.id = i := by
    simpa using List.find?_some (p := fun n : Note => n.id == i) hfound
  refine ⟨_, _, update_note_ok hv hne hfound, rfl, rfl, rfl, rfl, rfl, ?_, ?_⟩
  · have hpres : ∀ n : Note, ((fun n : Note => if n.id == i then
        { n with title := p.title.getD existing.title,
                 content := p.content.getD existing.content,
                 updated_at := now } else n) n).id = n.id := by
      intro n
      by_cases h : (n.id == i) = true
      · simp [h]
      · simp [h]
    rw [selectNote_map_of_id_preserving hpres, hfound]
    simp [hid2]
  · intro m hm hmne
    refine List.mem_map.mpr ⟨m, hm, ?_⟩
    simp [hmne]

/-- Witness for C1: a content-omitting update of a one-row table. -/
theorem update_replaces_exactly_supplied_fields_witness :
    selectNote [⟨1, "a", "b", 0, 0⟩] 1 = some ⟨1, "a", "b", 0, 0⟩ ∧
    (∃ db' n', update_note [⟨1, "a", "b", 0, 0⟩] 1 ⟨some "t", none⟩ 5 = Except.ok (db', n') ∧
      n'.id = 1 ∧ n'.title = "t" ∧ n'.content = "b" ∧
      n'.created_at = 0 ∧ n'.updated_at = 5 ∧
      selectNote db' 1 = some n' ∧
      (∀ m ∈ [(⟨1, "a", "b", 0, 0⟩ : Note)], m.id ≠ 1 → m ∈ db')) :=
  ⟨by decide,
   update_replaces_exactly_supplied_fields [⟨1, "a", "b", 0, 0⟩] 1 5 ⟨some "t", none⟩
     ⟨1, "a", "b", 0, 0⟩ (by decide) (by decide) (by decide)⟩

/-- C3: For every valid create payload, the create succeeds; the returned
note carries the payload's title and content, has `created_at = updated_at`
(= the creation clock), and fetching it by the returned id yields that note. -/
theorem create_then_get_roundtrip
    (db : DB) (p : NoteCreate) (now : Nat) (hv : p.valid = true) :
    ∃ db' n, create_note db p now = Except.ok (db', n) ∧
      n.title = p.title ∧ n.content = p.content ∧
      n.created_at = now ∧ n.updated_at = now ∧
      n.created_at = n.updated_at ∧
      get_note db' n.id = Except.ok n := by
  refine ⟨_, _, create_note_ok hv, rfl, rfl, rfl, rfl, rfl, ?_⟩
  have hfresh : ∀ m ∈ db,
      m.id ≠ (⟨nextRowId db, p.title, p.content, now, now⟩ : Note).id := by
    intro m hm
    have := mem_id_le_maxId hm
    simp only [nextRowId]
    omega
  simp [get_note, selectNote_append_last hfresh]

/-- Witness for C3: creating in an empty table and fetching back. -/
theorem create_then_get_roundtrip_witness :
    NoteCreate.valid ⟨"A", "B"⟩ = true ∧
    (∃ db' n, create_note [] ⟨"A", "B"⟩ 7 = Except.ok (db', n) ∧
      n.title = "A" ∧ n.content = "B" ∧
      n.created_at = 7 ∧ n.updated_at = 7 ∧ n.created_at = n.updated_at ∧
      get_note db' n.id = Except.ok n) :=
  ⟨by decide, create_then_get_roundtrip [] ⟨"A", "B"⟩ 7 (by decide)⟩

/-- C6: For every id with no matching row, the get and the delete both fail
with the not-found error (HTTP 404); the failed delete leaves the table
unchanged (and the get is a pure read of the table in this embedding). -/
theorem get_delete_missing_id_not_found
    (db : DB) (i : Nat) (h : selectNote db i = none) :
    get_note db i = Except.error ApiError.notFound ∧
    delete_note db i = Except.error ApiError.notFound ∧
    getStatus db i = 404 ∧
    deleteStatus db i = 404 ∧
    applyOp db (Op.delete i) 0 = db := by
  have hd := delete_note_of_none h
  have hg : get_note db i = Except.error ApiError.notFound := by
    simp [get_note, h]
  refine ⟨hg, hd, ?_, ?_, ?_⟩
  · simp [getStatus, hg, ApiError.status]
  · simp [deleteStatus, hd, ApiError.status]
  · simp [applyOp, hd]

/-- Witness for C6: id 99 is absent from a one-row table. -/
theorem get_delete_missing_id_not_found_witness :
    selectNote [⟨1, "a", "b", 0, 0⟩] 99 = none ∧
    (get_note [⟨1, "a", "b", 0, 0⟩] 99 = Except.error ApiError.notFound ∧
     delete_note [⟨1, "a", "b", 0, 0⟩] 99 = Except.error ApiError.notFound ∧
     getStatus [⟨1, "a", "b", 0, 0⟩] 99 = 404 ∧
     deleteStatus [⟨1, "a", "b", 0, 0⟩] 99 = 404 ∧
     applyOp [⟨1, "a", "b", 0, 0⟩] (Op.delete 99) 0 = [⟨1, "a", "b", 0, 0⟩]) :=
  ⟨by decide, get_delete_missing_id_not_found [⟨1, "a", "b", 0, 0⟩] 99 (by decide)⟩

/-- C7: An update supplying neither title nor content is rejected with the
validation error (HTTP 422) for every table state — the outcome is a constant
in the table, so the rejection happens before any storage access — and the
table is left unchanged. -/
theorem update_no_fields_rejected (db : DB) (i now : Nat) :
    update_note db i ⟨none, none⟩ now = Except.error ApiError.validation ∧
    updateStatus db i ⟨none, none⟩ now = 422 ∧
    applyOp db (Op.update i ⟨none, none⟩) now = db :=
  ⟨rfl, rfl, rfl⟩

/-- C10: An update supplying neither field returns the validation error
(HTTP 422) even when the target id does not exist: the empty-payload check
precedes the existence check, so 422 takes precedence over 404. -/
theorem update_no_fields_beats_missing_id
    (db : DB) (i now : Nat) (_h : selectNote db i = none) :
    update_note db i ⟨none, none⟩ now = Except.error ApiError.validation ∧
    updateStatus db i ⟨none, none⟩ now = 422 :=
  ⟨rfl, rfl⟩

/-- Witness for C10: empty payload against an id absent from the table. -/
theorem update_no_fields_beats_missing_id_witness :
    selectNote [] 99 = none ∧
    (update_note [] 99 ⟨none, none⟩ 0 = Except.error ApiError.validation ∧
     updateStatus [] 99 ⟨none, none⟩ 0 = 422) :=
  ⟨by decide, update_no_fields_beats_missing_id [] 99 0 (by decide)⟩

theorem create_note_of_invalid {db : DB} {p : NoteCreate} {now : Nat}
    (hv : p.valid = false) :
    create_note db p now = Except.error ApiError.validation := by
  unfold create_note
  rw [hv]
  rfl

theorem applyOp_create_of_invalid {db : DB} {p : NoteCreate} {now : Nat}
    (hv : p.valid = false) : applyOp db (Op.create p) now = db := by
  show (match create_note db p now with
        | Except.ok (db', _) => db'
        | Except.error _ => db) = db
  rw [create_note_of_invalid hv]

theorem validTitle_replicate_200 :
    validTitle (String.mk (List.replicate 200 'a')) = true := by
  unfold validTitle
  rw [String.length_mk, List.length_replicate]
  decide

theorem validTitle_replicate_201 :
    validTitle (String.mk (List.replicate 201 'a')) = false := by
  unfold validTitle
  rw [String.length_mk, List.length_replicate]
  decide

theorem validContent_replicate_20001 :
    validContent (String.mk (List.replicate 20001 'b')) = false := by
  unfold validContent
  rw [String.length_mk, List.length_replicate]
  decide

/-- C8: Create-side validation boundaries: a 200-character title is
accepted; a 201-character title, an empty title, a 20001-character content and
an empty content are each rejected with the validation error (HTTP 422) and no
row is inserted; in general the payload passes validation exactly when the
title is 1–200 characters and the content 1–20000 characters, and a create
succeeds exactly on the payloads passing validation. -/
theorem create_validation_boundaries :
    (∀ (db : DB) (now : Nat), ∃ db' n,
      create_note db ⟨String.mk (List.replicate 200 'a'), "b"⟩ now = Except.ok (db', n)) ∧
    (∀ (db : DB) (now : Nat),
      create_note db ⟨String.mk (List.replicate 201 'a'), "b"⟩ now =
        Except.error ApiError.validation ∧
      applyOp db (Op.create ⟨String.mk (List.replicate 201 'a'), "b"⟩) now = db) ∧
    (∀ (db : DB) (now : Nat),
      create_note db ⟨"", "b"⟩ now = Except.error ApiError.validation ∧
      applyOp db (Op.create ⟨"", "b"⟩) now = db) ∧
    (∀ (db : DB) (now : Nat),
      create_note db ⟨"a", String.mk (List.replicate 20001 'b')⟩ now =
        Except.error ApiError.validation ∧
      applyOp db (Op.create ⟨"a", String.mk (List.replicate 20001 'b')⟩) now = db) ∧
    (∀ (db : DB) (now : Nat),
      create_note db ⟨"a", ""⟩ now = Except.error ApiError.validation ∧
      applyOp db (Op.create ⟨"a", ""⟩) now = db) ∧
    (∀ p : NoteCreate, p.valid = true ↔
      (1 ≤ p.title.length ∧ p.title.length ≤ 200 ∧
       1 ≤ p.content.length ∧ p.content.length ≤ 20000)) ∧
    (∀ (db : DB) (p : NoteCreate) (now : Nat),
      (∃ db' n, create_note db p now = Except.ok (db', n)) ↔ p.valid = true) := by
  have hv200 : (NoteCreate.mk (String.mk (List.replicate 200 'a')) "b").valid = true := by
    show (validTitle (String.mk (List.replicate 200 'a')) && validContent "b") = true
    rw [validTitle_replicate_200]
    decide
  have hv201 : (NoteCreate.mk (String.mk (List.replicate 201 'a')) "b").valid = false := by
    show (validTitle (String.mk (List.replicate 201 'a')) && validContent "b") = false
    rw [validTitle_replicate_201]
    rfl
  have hvET : (NoteCreate.mk "" "b").valid = false := by decide
  have hv20001 : (NoteCreate.mk "a" (String.mk (List.replicate 20001 'b'))).valid = false := by
    show (validTitle "a" && validContent (String.mk (List.replicate 20001 'b'))) = false
    rw [validContent_replicate_20001]
    decide
  have hvEC : (NoteCreate.mk "a" "").valid = false := by decide
  refine ⟨?_, ?_, ?_, ?_, ?_, ?_, ?_⟩
  · intro db now
    exact ⟨_, _, create_note_ok hv200⟩
  · intro db now
    exact ⟨create_note_of_invalid hv201, applyOp_create_of_invalid hv201⟩
  · intro db now
    exact ⟨create_note_of_invalid hvET, applyOp_create_of_invalid hvET⟩
  · intro db now
    exact ⟨create_note_of_invalid hv20001, applyOp_create_of_invalid hv20001⟩
  · intro db now
    exact ⟨create_note_of_invalid hvEC, applyOp_create_of_invalid hvEC⟩
  · intro p
    simp [NoteCreate.valid, validTitle, validContent, and_assoc]
  · intro db p now
    constructor
    · intro hex
      obtain ⟨db', n, hok⟩ := hex
      cases hval : p.valid
      · rw [create_note_of_invalid hval] at hok
        simp at hok
      · rfl
    · intro hv
      exact ⟨_, _, create_note_ok hv⟩

/-- Witness for C8: the 200-character title is accepted on an empty table. -/
theorem create_validation_boundaries_witness :
    ∃ db' n, create_note [] ⟨String.mk (List.replicate 200 'a'), "b"⟩ 0 =
      Except.ok (db', n) :=
  create_validation_boundaries.1 [] 0

theorem mergeSort_pair {α : Type} (le : α → α → Bool) (a b : α) :
    [a, b].mergeSort le = if le a b then [a, b] else [b, a] := by
  rw [List.mergeSort]
  simp [List.merge]

/-- C2 counterexample: the sort key is `datetime(updated_at)`, which truncates
the microsecond-resolution timestamps to whole seconds, so two notes updated
at distinct instants within the same second tie and fall back to `id DESC`.
The trace creates note 1 at 0s, note 2 at 0.5s, then updates note 1 at 0.9s;
`list_notes` returns note 2 (updated at 0.5s) before note 1 (updated at 0.9s),
so the output is not strictly descending in `updated_at` although the two
update times are distinct. -/
theorem same_second_distinct_updates_not_strictly_descending :
    runOps [] [(Op.create ⟨"a", "b"⟩, 0), (Op.create ⟨"c", "d"⟩, 500000),
               (Op.update 1 ⟨none, some "z"⟩, 900000)] =
      [⟨1, "a", "z", 0, 900000⟩, ⟨2, "c", "d", 500000, 500000⟩] ∧
    list_notes [⟨1, "a", "z", 0, 900000⟩, ⟨2, "c", "d", 500000, 500000⟩] =
      [⟨2, "c", "d", 500000, 500000⟩, ⟨1, "a", "z", 0, 900000⟩] ∧
    (⟨2, "c", "d", 500000, 500000⟩ : Note).updated_at <
      (⟨1, "a", "z", 0, 900000⟩ : Note).updated_at ∧
    ¬ (list_notes [⟨1, "a", "z", 0, 900000⟩, ⟨2, "c", "d", 500000, 500000⟩]).Pairwise
        (fun a b => b.updated_at < a.updated_at ∨
          (b.updated_at = a.updated_at ∧ b.id < a.id)) := by
  have hpair : list_notes [⟨1, "a", "z", 0, 900000⟩, ⟨2, "c", "d", 500000, 500000⟩] =
      [⟨2, "c", "d", 500000, 500000⟩, ⟨1, "a", "z", 0, 900000⟩] := by
    unfold list_notes
    rw [mergeSort_pair]
    decide
  refine ⟨by decide, hpair, by decide, ?_⟩
  rw [hpair]
  decide

/-- C2 amended: `list_notes` returns all rows of the table (a permutation of
it), ordered by `datetime(updated_at)` — the stored timestamp truncated to
whole seconds — descending, with ties in the truncated timestamp (including
notes updated at distinct instants within the same second) broken by id
descending: when the table's ids are pairwise distinct (as the primary key
guarantees), every row is followed only by rows with a strictly smaller
truncated `updated_at`, or with an equal truncated `updated_at` and a strictly
smaller id. In particular two notes with identical `updated_at` appear with
the larger id first, and strict descent in `updated_at` holds across rows
whose truncated timestamps differ. -/
theorem list_notes_ordering_truncated (db : DB) (hids : (db.map Note.id).Nodup) :
    (list_notes db).Perm db ∧
    (list_notes db).Pairwise (fun a b =>
      datetimeTrunc b.updated_at < datetimeTrunc a.updated_at ∨
      (datetimeTrunc b.updated_at = datetimeTrunc a.updated_at ∧ b.id < a.id)) := by
  have hperm : (list_notes db).Perm db := List.mergeSort_perm db noteLE
  refine ⟨hperm, ?_⟩
  have htrans : ∀ a b c : Note,
      noteLE a b = true → noteLE b c = true → noteLE a c = true := by
    intro a b c hab hbc
    simp only [noteLE, Bool.or_eq_true, Bool.and_eq_true, decide_eq_true_eq,
      beq_iff_eq] at hab hbc ⊢
    omega
  have htotal : ∀ a b : Note, (noteLE a b || noteLE b a) = true := by
    intro a b
    simp only [noteLE, Bool.or_eq_true, Bool.and_eq_true, decide_eq_true_eq,
      beq_iff_eq]
    omega
  have hsorted : (list_notes db).Pairwise (fun a b => noteLE a b = true) :=
    List.sorted_mergeSort htrans htotal db
  have hnd : ((list_notes db).map Note.id).Nodup :=
    ((hperm.map Note.id).nodup_iff).mpr hids
  have hne : (list_notes db).Pairwise (fun a b : Note => a.id ≠ b.id) :=
    List.pairwise_map.mp hnd
  refine (hsorted.and hne).imp ?_
  intro a b hab
  obtain ⟨h1, h2⟩ := hab
  simp only [noteLE, Bool.or_eq_true, Bool.and_eq_true, decide_eq_true_eq,
    beq_iff_eq] at h1
  omega

/-- Witness for the amended C2: a three-row table with a truncated-timestamp
tie between ids 1 (updated at 5.0s) and 2 (updated at 5.5s). -/
theorem list_notes_ordering_truncated_witness :
    (([⟨1, "a", "b", 0, 5000000⟩, ⟨2, "c", "d", 0, 5500000⟩,
       ⟨3, "e", "f", 0, 9000000⟩] : DB).map Note.id).Nodup ∧
    ((list_notes [⟨1, "a", "b", 0, 5000000⟩, ⟨2, "c", "d", 0, 5500000⟩,
        ⟨3, "e", "f", 0, 9000000⟩]).Perm
       [⟨1, "a", "b", 0, 5000000⟩, ⟨2, "c", "d", 0, 5500000⟩,
        ⟨3, "e", "f", 0, 9000000⟩] ∧
     (list_notes [⟨1, "a", "b", 0, 5000000⟩, ⟨2, "c", "d", 0, 5500000⟩,
        ⟨3, "e", "f", 0, 9000000⟩]).Pairwise
       (fun a b =>
         datetimeTrunc b.updated_at < datetimeTrunc a.updated_at ∨
         (datetimeTrunc b.updated_at = datetimeTrunc a.updated_at ∧ b.id < a.id))) :=
  ⟨by decide,
   list_notes_ordering_truncated
     [⟨1, "a", "b", 0, 5000000⟩, ⟨2, "c", "d", 0, 5500000⟩, ⟨3, "e", "f", 0, 9000000⟩]
     (by decide)⟩

theorem create_note_ok_inv {db : DB} {p : NoteCreate} {now : Nat} {db' : DB} {n : Note}
    (h : create_note db p now = Except.ok (db', n)) :
    p.valid = true ∧
    db' = db ++ [⟨nextRowId db, p.title, p.content, now, now⟩] ∧
    n = ⟨nextRowId db, p.title, p.content, now, now⟩ := by
  cases hv : p.valid
  · rw [create_note_of_invalid hv] at h
    cases h
  · rw [create_note_ok hv] at h
    injection h with h1
    injection h1 with h2 h3
    exact ⟨rfl, h2.symm, h3.symm⟩

theorem update_note_ok_inv {db : DB} {j now : Nat} {q : NoteUpdate} {db' : DB} {n' : Note}
    (h : update_note db j q now = Except.ok (db', n')) :
    ∃ existing, selectNote db j = some existing ∧
      q.valid = true ∧ ¬(q.title = none ∧ q.content = none) ∧
      db' = db.map (fun n => if n.id == j then
        { n with title := q.title.getD existing.title,
                 content := q.content.getD existing.content,
                 updated_at := now } else n) ∧
      n' = { existing with title := q.title.getD existing.title,
                           content := q.content.getD existing.content,
                           updated_at := now } := by
  cases hv : q.valid
  · unfold update_note at h
    rw [hv] at h
    cases h
  · by_cases hne : q.title = none ∧ q.content = none
    · unfold update_note at h
      rw [hv, if_pos hne] at h
      cases h
    · cases hsel : selectNote db j with
      | none =>
        unfold update_note at h
        rw [hv, if_neg hne, hsel] at h
        cases h
      | some ex =>
        rw [update_note_ok hv hne hsel] at h
        injection h with h1
        injection h1 with h2 h3
        exact ⟨ex, rfl, rfl, hne, h2.symm, h3.symm⟩

theorem delete_note_ok_inv {db : DB} {i : Nat} {db' : DB}
    (h : delete_note db i = Except.ok db') :
    db' = db.filter (fun n => n.id != i) := by
  by_cases hc : ((db.filter (fun n => n.id != i)).length == db.length) = true
  · have he : delete_note db i = Except.error ApiError.notFound := by
      show (if ((db.filter (fun n => n.id != i)).length == db.length) = true
            then Except.error ApiError.notFound
            else Except.ok (db.filter (fun n => n.id != i))) =
        Except.error ApiError.notFound
      rw [if_pos hc]
    rw [he] at h
    cases h
  · have ho : delete_note db i = Except.ok (db.filter (fun n => n.id != i)) := by
      show (if ((db.filter (fun n => n.id != i)).length == db.length) = true
            then Except.error ApiError.notFound
            else Except.ok (db.filter (fun n => n.id != i))) =
        Except.ok (db.filter (fun n => n.id != i))
      rw [if_neg hc]
    rw [ho] at h
    injection h with h1
    exact h1.symm

/-- C4 counterexample: an id assigned by create is reassigned to a
later-created note once the note holding it is deleted. Under the SQLite
rowid rule for `INTEGER PRIMARY KEY` (no `AUTOINCREMENT`), creating in an
empty table assigns id 1, deleting that note empties the table, and the next
create assigns id 1 again — the trace below ends with a different note that
carries the first note's id. -/
theorem note_id_reused_after_delete :
    create_note [] ⟨"A", "B"⟩ 0 =
      Except.ok ([⟨1, "A", "B", 0, 0⟩], ⟨1, "A", "B", 0, 0⟩) ∧
    delete_note [⟨1, "A", "B", 0, 0⟩] 1 = Except.ok [] ∧
    create_note [] ⟨"C", "D"⟩ 1 =
      Except.ok ([⟨1, "C", "D", 1, 1⟩], ⟨1, "C", "D", 1, 1⟩) ∧
    runOps [] [(Op.create ⟨"A", "B"⟩, 0), (Op.delete 1, 1), (Op.create ⟨"C", "D"⟩, 2)] =
      [⟨1, "C", "D", 2, 2⟩] ∧
    (⟨1, "C", "D", 2, 2⟩ : Note).id = (⟨1, "A", "B", 0, 0⟩ : Note).id :=
  ⟨rfl, rfl, rfl, by decide, rfl⟩

/-- C4 amended: an id assigned by a successful create is strictly greater
than every id present in the table at creation time; hence no two coexisting
notes ever share an id and an id is never reassigned while the note holding
it (or any note with a larger id) remains — but after the note with the
largest id is deleted, its id can be assigned again. -/
theorem create_id_exceeds_existing_ids
    (db : DB) (p : NoteCreate) (now : Nat) (db' : DB) (n : Note)
    (h : create_note db p now = Except.ok (db', n)) :
    ∀ m ∈ db, m.id < n.id := by
  intro m hm
  obtain ⟨-, -, hn⟩ := create_note_ok_inv h
  have hle : m.id ≤ maxId db := mem_id_le_maxId hm
  have : n.id = nextRowId db := by rw [hn]
  rw [this]
  simp only [nextRowId]
  omega

/-- Witness for the amended C4: creating over a table holding id 1 yields id 2. -/
theorem create_id_exceeds_existing_ids_witness :
    create_note [⟨1, "x", "y", 0, 0⟩] ⟨"A", "B"⟩ 3 =
      Except.ok ([⟨1, "x", "y", 0, 0⟩, ⟨2, "A", "B", 3, 3⟩], ⟨2, "A", "B", 3, 3⟩) ∧
    (⟨1, "x", "y", 0, 0⟩ : Note).id < (⟨2, "A", "B", 3, 3⟩ : Note).id :=
  ⟨rfl,
   create_id_exceeds_existing_ids [⟨1, "x", "y", 0, 0⟩] ⟨"A", "B"⟩ 3
     [⟨1, "x", "y", 0, 0⟩, ⟨2, "A", "B", 3, 3⟩] ⟨2, "A", "B", 3, 3⟩ rfl
     ⟨1, "x", "y", 0, 0⟩ (by decide)⟩

theorem id_absent_after_applyOp_no_create {db : DB} {i : Nat}
    (habs : ∀ n ∈ db, n.id ≠ i) {op : Op} (hop : op.isCreate = false) (now : Nat) :
    ∀ n ∈ applyOp db op now, n.id ≠ i := by
  cases op with
  | create p => simp [Op.isCreate] at hop
  | update j q =>
    cases hu : update_note db j q now with
    | error e => simpa [applyOp, hu] using habs
    | ok pr =>
      obtain ⟨db', n'⟩ := pr
      obtain ⟨ex, -, -, -, hdb, -⟩ := update_note_ok_inv hu
      intro m hm
      rw [show applyOp db (Op.update j q) now = db' by simp [applyOp, hu]] at hm
      subst hdb
      obtain ⟨x, hx, hfx⟩ := List.mem_map.mp hm
      have hidpres : m.id = x.id := by
        rw [← hfx]
        by_cases hxj : (x.id == j) = true
        · simp [hxj]
        · simp [hxj]
      rw [hidpres]
      exact habs x hx
  | delete j =>
    cases hd : delete_note db j with
    | error e => simpa [applyOp, hd] using habs
    | ok db' =>
      intro m hm
      rw [show applyOp db (Op.delete j) now = db' by simp [applyOp, hd]] at hm
      rw [delete_note_ok_inv hd] at hm
      exact habs m (List.mem_filter.mp hm).1

theorem id_absent_after_runOps_no_create {db : DB} {i : Nat}
    (habs : ∀ n ∈ db, n.id ≠ i) {ops : List (Op × Nat)}
    (hops : ∀ o ∈ ops, (Prod.fst o).isCreate = false) :
    ∀ n ∈ runOps db ops, n.id ≠ i := by
  induction ops generalizing db with
  | nil => exact habs
  | cons o rest ih =>
    obtain ⟨op, ts⟩ := o
    have h1 : op.isCreate = false := hops (op, ts) (List.mem_cons_self _ _)
    have h2 : ∀ o ∈ rest, (Prod.fst o).isCreate = false :=
      fun o ho => hops o (List.mem_cons_of_mem _ ho)
    exact ih (id_absent_after_applyOp_no_create habs h1 ts) h2

/-- C5 counterexample: after a successful delete the removed id can reappear
in a later list result. Deleting the only note (id 1) succeeds, but a later
create reassigns id 1 (SQLite rowid reuse), and `list_notes` then shows a
note with id 1 again. -/
theorem deleted_id_reappears_in_list :
    delete_note [⟨1, "A", "B", 0, 0⟩] 1 = Except.ok [] ∧
    runOps [⟨1, "A", "B", 0, 0⟩] [(Op.delete 1, 1), (Op.create ⟨"C", "D"⟩, 2)] =
      [⟨1, "C", "D", 2, 2⟩] ∧
    (∃ n ∈ list_notes [⟨1, "C", "D", 2, 2⟩], n.id = 1) := by
  refine ⟨rfl, by decide, ?_⟩
  have hl : list_notes [⟨1, "C", "D", 2, 2⟩] = [⟨1, "C", "D", 2, 2⟩] := by
    simp [list_notes]
  exact ⟨⟨1, "C", "D", 2, 2⟩, by rw [hl]; exact List.mem_singleton.mpr rfl, rfl⟩

/-- C5 amended: a successful delete returns 204 with an empty body and removes
every row carrying the deleted id; an immediately subsequent get on that id
returns not-found, the id appears in no list result of the resulting table,
and it stays absent under every further trace that contains no create call —
only a later create can make the id reappear (see the id-reuse
counterexample for C4). -/
theorem delete_removes_visibility
    (db : DB) (i : Nat) (db' : DB) (h : delete_note db i = Except.ok db') :
    deleteStatus db i = 204 ∧
    get_note db' i = Except.error ApiError.notFound ∧
    (∀ n ∈ list_notes db', n.id ≠ i) ∧
    (∀ ops : List (Op × Nat), (∀ o ∈ ops, (Prod.fst o).isCreate = false) →
      ∀ n ∈ runOps db' ops, n.id ≠ i) := by
  have hdb' := delete_note_ok_inv h
  have habs : ∀ n ∈ db', n.id ≠ i := by
    intro n hn
    rw [hdb'] at hn
    have := (List.mem_filter.mp hn).2
    simpa using this
  have hsel : selectNote db' i = none := selectNote_eq_none_iff.mpr habs
  refine ⟨?_, ?_, ?_, ?_⟩
  · simp [deleteStatus, h]
  · simp [get_note, hsel]
  · intro n hn
    exact habs n (List.mem_mergeSort.mp hn)
  · intro ops hops
    exact id_absent_after_runOps_no_create habs hops

/-- Witness for the amended C5: deleting id 1 from a two-row table. -/
theorem delete_removes_visibility_witness :
    delete_note [⟨1, "A", "B", 0, 0⟩, ⟨2, "C", "D", 0, 1⟩] 1 =
      Except.ok [⟨2, "C", "D", 0, 1⟩] ∧
    (deleteStatus [⟨1, "A", "B", 0, 0⟩, ⟨2, "C", "D", 0, 1⟩] 1 = 204 ∧
     get_note [⟨2, "C", "D", 0, 1⟩] 1 = Except.error ApiError.notFound ∧
     (∀ n ∈ list_notes [⟨2, "C", "D", 0, 1⟩], n.id ≠ 1) ∧
     (∀ ops : List (Op × Nat), (∀ o ∈ ops, (Prod.fst o).isCreate = false) →
       ∀ n ∈ runOps [⟨2, "C", "D", 0, 1⟩] ops, n.id ≠ 1)) :=
  ⟨rfl,
   delete_removes_visibility [⟨1, "A", "B", 0, 0⟩, ⟨2, "C", "D", 0, 1⟩] 1
     [⟨2, "C", "D", 0, 1⟩] rfl⟩

theorem timeWF_mono {db : DB} {t t' : Nat} (h : t ≤ t') (hwf : TimeWF t db) :
    TimeWF t' db :=
  fun n hn => ⟨(hwf n hn).1, le_trans (hwf n hn).2 h⟩

theorem timeWF_applyOp {db : DB} {t now : Nat} (op : Op)
    (hwf : TimeWF t db) (hle : t ≤ now) : TimeWF now (applyOp db op now) := by
  have hmono : TimeWF now db := timeWF_mono hle hwf
  cases op with
  | create p =>
    cases hc : create_note db p now with
    | error e => simpa [applyOp, hc] using hmono
    | ok pr =>
      obtain ⟨db', n⟩ := pr
      obtain ⟨-, hdb, -⟩ := create_note_ok_inv hc
      intro m hm
      rw [show applyOp db (Op.create p) now = db' by simp [applyOp, hc]] at hm
      subst hdb
      rcases List.mem_append.mp hm with hmem | hmem
      · exact hmono m hmem
      · have : m = (⟨nextRowId db, p.title, p.content, now, now⟩ : Note) :=
          List.mem_singleton.mp hmem
        subst this
        exact ⟨le_refl now, le_refl now⟩
  | update j q =>
    cases hu : update_note db j q now with
    | error e => simpa [applyOp, hu] using hmono
    | ok pr =>
      obtain ⟨db', n'⟩ := pr
      obtain ⟨ex, -, -, -, hdb, -⟩ := update_note_ok_inv hu
      intro m hm
      rw [show applyOp db (Op.update j q) now = db' by simp [applyOp, hu]] at hm
      subst hdb
      obtain ⟨x, hx, hfx⟩ := List.mem_map.mp hm
      by_cases hxj : (x.id == j) = true
      · rw [← hfx]
        simp only [hxj, if_true]
        exact ⟨le_trans (hmono x hx).1 (hmono x hx).2, le_refl now⟩
      · rw [← hfx]
        simp only [hxj]
        simp only [Bool.false_eq_true, if_false]
        exact hmono x hx
  | delete j =>
    cases hd : delete_note db j with
    | error e => simpa [applyOp, hd] using hmono
    | ok db' =>
      intro m hm
      rw [show applyOp db (Op.delete j) now = db' by simp [applyOp, hd]] at hm
      rw [delete_note_ok_inv hd] at hm
      exact hmono m (List.mem_filter.mp hm).1

theorem timeWF_runOps {db : DB} {t : Nat} {ops : List (Op × Nat)}
    (hwf : TimeWF t db)
    (hchain : List.Chain' (fun a b => a ≤ b) (t :: ops.map Prod.snd)) :
    ∀ n ∈ runOps db ops, n.created_at ≤ n.updated_at := by
  induction ops generalizing db t with
  | nil => exact fun n hn => (hwf n hn).1
  | cons o rest ih =>
    obtain ⟨op, ts⟩ := o
    simp only [List.map_cons] at hchain
    have hchain' := List.chain'_cons.mp hchain
    have hstep : TimeWF ts (applyOp db op ts) := timeWF_applyOp op hwf hchain'.1
    exact ih hstep hchain'.2

/-- C9: (a) along every trace whose timestamps are non-decreasing and start no
earlier than the clock-consistency bound of the initial table, every note in
the final table satisfies `created_at ≤ updated_at`; (b) creation returns a
note with `created_at = updated_at`; (c) a successful update changes no
note's `created_at` (for any id, the stored `created_at` is the same before
and after). -/
theorem updated_at_ge_created_at_invariant :
    (∀ (db : DB) (t : Nat) (ops : List (Op × Nat)), TimeWF t db →
       List.Chain' (fun a b => a ≤ b) (t :: ops.map Prod.snd) →
       ∀ n ∈ runOps db ops, n.created_at ≤ n.updated_at) ∧
    (∀ (db : DB) (p : NoteCreate) (now : Nat) (db' : DB) (n : Note),
       create_note db p now = Except.ok (db', n) → n.created_at = n.updated_at) ∧
    (∀ (db : DB) (i now : Nat) (p : NoteUpdate) (db' : DB) (n' : Note),
       update_note db i p now = Except.ok (db', n') →
       ∀ j, Option.map Note.created_at (selectNote db' j) =
            Option.map Note.created_at (selectNote db j)) := by
  refine ⟨fun db t ops hwf hchain => timeWF_runOps hwf hchain, ?_, ?_⟩
  · intro db p now db' n h
    obtain ⟨-, -, hn⟩ := create_note_ok_inv h
    rw [hn]
  · intro db i now p db' n' h j
    obtain ⟨ex, -, -, -, hdb, -⟩ := update_note_ok_inv h
    subst hdb
    have hpres : ∀ n : Note, ((fun n : Note => if n.id == i then
        { n with title := p.title.getD ex.title,
                 content := p.content.getD ex.content,
                 updated_at := now } else n) n).id = n.id := by
      intro n
      by_cases hni : (n.id == i) = true
      · simp [hni]
      · simp [hni]
    rw [selectNote_map_of_id_preserving hpres]
    cases hsel : selectNote db j with
    | none => rfl
    | some x =>
      simp only [Option.map]
      split <;> rfl

/-- Witness for C9: a create followed by a partial update at later clock
values keeps `created_at ≤ updated_at` in the final table. -/
theorem updated_at_ge_created_at_invariant_witness :
    TimeWF 0 [] ∧
    List.Chain' (fun a b => a ≤ b)
      (0 :: ([((Op.create ⟨"A", "B"⟩ : Op), 1),
              (Op.update 1 ⟨none, some "z"⟩, 2)].map Prod.snd)) ∧
    (⟨1, "A", "z", 1, 2⟩ : Note) ∈
      runOps [] [((Op.create ⟨"A", "B"⟩ : Op), 1), (Op.update 1 ⟨none, some "z"⟩, 2)] ∧
    (⟨1, "A", "z", 1, 2⟩ : Note).created_at ≤ (⟨1, "A", "z", 1, 2⟩ : Note).updated_at :=
  have h1 : TimeWF 0 [] := fun n hn => absurd hn (List.not_mem_nil n)
  have h2 : List.Chain' (fun a b => a ≤ b)
      (0 :: ([((Op.create ⟨"A", "B"⟩ : Op), 1),
              (Op.update 1 ⟨none, some "z"⟩, 2)].map Prod.snd)) := by
    simp only [List.map_cons, List.map_nil]
    exact List.chain'_cons.mpr ⟨by omega,
      List.chain'_cons.mpr ⟨by omega, List.chain'_singleton _⟩⟩
  have h3 : (⟨1, "A", "z", 1, 2⟩ : Note) ∈
      runOps [] [((Op.create ⟨"A", "B"⟩ : Op), 1), (Op.update 1 ⟨none, some "z"⟩, 2)] := by
    decide
  ⟨h1, h2, h3,
   updated_at_ge_created_at_invariant.1 [] 0
     [((Op.create ⟨"A", "B"⟩ : Op), 1), (Op.update 1 ⟨none, some "z"⟩, 2)] h1 h2
     ⟨1, "A", "z", 1, 2⟩ h3⟩
